import Mathlib

/-!
Verification of the PortfolioDocumentorPRO client core: the structured
extraction service (`analyzePortfolio`), the free-text artifact capabilities
(`generateReadme` and friends), the response normalizer (`cleanCodeBlock`),
the schema registry, and the commit-config filename selection in the
presentation layer.  Strings are modelled as `List Char`; the JavaScript
string operations used by the source (`trim`, the fence-stripping regex
replace, `toLowerCase`, substring match) are embedded explicitly.
-/

namespace PortfolioDoc

/-- Strings of the embedded program, as lists of characters. -/
abbrev Str := List Char

/-- The whitespace class of JavaScript `String.prototype.trim`
(ASCII whitespace plus NBSP, LS, PS and BOM). -/
def isJsWs (c : Char) : Bool :=
  c = ' ' || c = '\t' || c = '\n' || c = '\r' ||
  c = Char.ofNat 11 || c = Char.ofNat 12 ||
  c = Char.ofNat 0xa0 || c = Char.ofNat 0x2028 || c = Char.ofNat 0x2029 ||
  c = Char.ofNat 0xfeff

/-- Remove leading JS whitespace. -/
def trimLeft (s : Str) : Str := s.dropWhile isJsWs

/-- Remove trailing JS whitespace. -/
def trimRight : Str → Str
  | [] => []
  | c :: t =>
    match trimRight t with
    | [] => if isJsWs c then [] else [c]
    | r => c :: r

/-- JavaScript `s.trim()`: remove leading and trailing whitespace. -/
def trimChars (s : Str) : Str := trimRight (trimLeft s)

/-- The backtick character (spelled via its code point). -/
def bt : Char := Char.ofNat 96

/-- Character class `[a-z-]` of the fence regex under the `i` flag:
ASCII letters of either case, or a hyphen. -/
def isLangChar (c : Char) : Bool := c.isAlpha || c = '-'

/-- The closing fence `"\n```"` required at the very end of the text
by the anchored regex. -/
def fenceClose : Str := '\n' :: [bt, bt, bt]

/-- The opening fence `"```"`. -/
def fenceOpen : Str := [bt, bt, bt]

/-- If `rest2 = body ++ "\n```"`, return `some body`, else `none`
(the regex's requirement that the closing fence end the string). -/
def dropCloseFence (rest2 : Str) : Option Str :=
  match rest2.reverse with
  | c1 :: c2 :: c3 :: c4 :: rb =>
    if c1 = bt ∧ c2 = bt ∧ c3 = bt ∧ c4 = '\n' then some rb.reverse else none
  | _ => none

/-- The anchored fence regex `^\x60\x60\x60[a-z-]*\n([\s\S]*)\n\x60\x60\x60$`
with the `i` flag: `some capture` when the whole text is one fenced block,
`none` otherwise (source: the `replace` call in `cleanCodeBlock`,
src/types.ts lines 72-77). -/
def stripFenceCore (text : Str) : Option Str :=
  match text with
  | a :: b :: c :: rest =>
    if a = bt ∧ b = bt ∧ c = bt then
      match rest.dropWhile isLangChar with
      | d :: rest2 => if d = '\n' then dropCloseFence rest2 else none
      | [] => none
    else none
  | _ => none

/-- `text.replace(fenceRegex, capture)`: the capture group when the regex
matches the entire text, the text unchanged otherwise. -/
def stripFence (text : Str) : Str :=
  match stripFenceCore text with
  | some body => body
  | none => text

/-- `cleanCodeBlock` (src/types.ts lines 72-77): empty input maps to the
empty string; otherwise strip a whole-string fenced block and trim. -/
def cleanCodeBlock (text : Str) : Str :=
  if text = [] then [] else trimChars (stripFence text)

/-- The shape of a whole-string fenced block: `"```" ++ lang ++ "\n" ++
body ++ "\n```"`. -/
def fencedForm (lang body : Str) : Str :=
  fenceOpen ++ lang ++ '\n' :: (body ++ fenceClose)

/- ## List helper lemmas -/

theorem take_length_append (l₁ l₂ : List Char) : (l₁ ++ l₂).take l₁.length = l₁ := by
  induction l₁ with
  | nil => rfl
  | cons a t ih => simp [List.take, ih]

theorem drop_length_append (l₁ l₂ : List Char) : (l₁ ++ l₂).drop l₁.length = l₂ := by
  induction l₁ with
  | nil => rfl
  | cons a t ih => simp only [List.cons_append, List.length_cons, List.drop_succ_cons, ih]

theorem takeWhile_append_of_all {p : Char → Bool} {l : Str} (hall : ∀ c ∈ l, p c = true)
    {x : Char} (hx : p x = false) (rest : Str) :
    (l ++ x :: rest).takeWhile p = l := by
  induction l with
  | nil => simp [List.takeWhile, hx]
  | cons a t ih =>
    have ha : p a = true := hall a (by simp)
    have ht : ∀ c ∈ t, p c = true := fun c hc => hall c (by simp [hc])
    simp [List.takeWhile, ha, ih ht]

theorem dropWhile_append_of_all {p : Char → Bool} {l : Str} (hall : ∀ c ∈ l, p c = true)
    {x : Char} (hx : p x = false) (rest : Str) :
    (l ++ x :: rest).dropWhile p = x :: rest := by
  induction l with
  | nil => simp [List.dropWhile, hx]
  | cons a t ih =>
    have ha : p a = true := hall a (by simp)
    have ht : ∀ c ∈ t, p c = true := fun c hc => hall c (by simp [hc])
    simp [List.dropWhile, ha, ih ht]

theorem dropWhile_dropWhile (p : Char → Bool) (l : Str) :
    (l.dropWhile p).dropWhile p = l.dropWhile p := by
  induction l with
  | nil => rfl
  | cons a t ih =>
    cases h : p a with
    | true => simp [List.dropWhile, h, ih]
    | false => simp [List.dropWhile, h]

theorem trimRight_cons (c : Char) (t : Str) :
    trimRight (c :: t) =
      (match trimRight t with
       | [] => if isJsWs c then [] else [c]
       | r => c :: r) := rfl

theorem trimRight_idem (l : Str) : trimRight (trimRight l) = trimRight l := by
  induction l with
  | nil => rfl
  | cons c t ih =>
    cases h : trimRight t with
    | nil =>
      cases hc : isJsWs c with
      | true =>
        have e : trimRight (c :: t) = [] := by rw [trimRight_cons, h]; simp [hc]
        rw [e]; rfl
      | false =>
        have e : trimRight (c :: t) = [c] := by rw [trimRight_cons, h]; simp [hc]
        rw [e, trimRight_cons]
        simp [trimRight, hc]
    | cons r rs =>
      have e : trimRight (c :: t) = c :: r :: rs := by rw [trimRight_cons, h]
      have h2 : trimRight (r :: rs) = r :: rs := by rw [← h, ih, h]
      rw [e, trimRight_cons, h2]

theorem trimLeft_trimRight (l : Str) (h : trimLeft l = l) :
    trimLeft (trimRight l) = trimRight l := by
  cases l with
  | nil => rfl
  | cons c t =>
    have hc : isJsWs c = false := by
      cases hmm : isJsWs c with
      | false => rfl
      | true =>
        exfalso
        have h2 : List.dropWhile isJsWs t = c :: t := by
          have h' := h
          simp only [trimLeft, List.dropWhile, hmm] at h'
          exact h'
        have hl := List.Sublist.length_le (List.dropWhile_sublist (l := t) (p := isJsWs))
        rw [h2] at hl
        simp at hl
    cases htr : trimRight t with
    | nil =>
      have e : trimRight (c :: t) = [c] := by rw [trimRight_cons, htr]; simp [hc]
      rw [e]
      simp [trimLeft, List.dropWhile, hc]
    | cons r rs =>
      have e : trimRight (c :: t) = c :: r :: rs := by rw [trimRight_cons, htr]
      rw [e]
      simp [trimLeft, List.dropWhile, hc]

theorem trimChars_idem (l : Str) : trimChars (trimChars l) = trimChars l := by
  unfold trimChars
  have h1 : trimLeft (trimLeft l) = trimLeft l := dropWhile_dropWhile _ _
  have h2 : trimLeft (trimRight (trimLeft l)) = trimRight (trimLeft l) :=
    trimLeft_trimRight _ h1
  rw [h2, trimRight_idem]

/- ## Fence-stripping characterization -/

theorem dropCloseFence_append (body : Str) : dropCloseFence (body ++ fenceClose) = some body := by
  unfold dropCloseFence fenceClose
  simp [List.reverse_append]

theorem dropCloseFence_eq_some (r body : Str) (h : dropCloseFence r = some body) :
    r = body ++ fenceClose := by
  unfold dropCloseFence at h
  rcases hrev : r.reverse with _ | ⟨c1, _ | ⟨c2, _ | ⟨c3, _ | ⟨c4, rb⟩⟩⟩⟩ <;>
    rw [hrev] at h
  · exact absurd h (by simp)
  · exact absurd h (by simp)
  · exact absurd h (by simp)
  · exact absurd h (by simp)
  · replace h : (if c1 = bt ∧ c2 = bt ∧ c3 = bt ∧ c4 = '\n' then some rb.reverse
                 else none) = some body := h
    split_ifs at h with hcond
    obtain ⟨e1, e2, e3, e4⟩ := hcond
    have hb : rb.reverse = body := by simpa using h
    have hr : r = (c1 :: c2 :: c3 :: c4 :: rb).reverse := by
      rw [← hrev, List.reverse_reverse]
    rw [hr, e1, e2, e3, e4]
    simp [fenceClose, hb]

theorem stripFenceCore_fencedForm (lang body : Str)
    (hl : ∀ c ∈ lang, isLangChar c = true) :
    stripFenceCore (fencedForm lang body) = some body := by
  have hnl : isLangChar '\n' = false := by decide
  unfold fencedForm fenceOpen
  simp only [List.cons_append, List.nil_append]
  show (if bt = bt ∧ bt = bt ∧ bt = bt then
          match (lang ++ '\n' :: (body ++ fenceClose)).dropWhile isLangChar with
          | d :: rest2 => if d = '\n' then dropCloseFence rest2 else none
          | [] => none
        else none) = some body
  rw [if_pos ⟨rfl, rfl, rfl⟩, dropWhile_append_of_all hl hnl]
  show (if ('\n' : Char) = '\n' then dropCloseFence (body ++ fenceClose) else none) = some body
  rw [if_pos rfl]
  exact dropCloseFence_append body

theorem stripFenceCore_eq_some (text body : Str)
    (h : stripFenceCore text = some body) :
    ∃ lang, (∀ c ∈ lang, isLangChar c = true) ∧ text = fencedForm lang body := by
  rcases text with _ | ⟨a, _ | ⟨b, _ | ⟨c, rest⟩⟩⟩
  · exact absurd h (by simp [stripFenceCore])
  · exact absurd h (by simp [stripFenceCore])
  · exact absurd h (by simp [stripFenceCore])
  · replace h : (if a = bt ∧ b = bt ∧ c = bt then
        match rest.dropWhile isLangChar with
        | d :: rest2 => if d = '\n' then dropCloseFence rest2 else none
        | [] => none
      else none) = some body := h
    split_ifs at h with habc
    obtain ⟨ea, eb, ec⟩ := habc
    cases hdw : rest.dropWhile isLangChar with
    | nil => rw [hdw] at h; exact absurd h (by simp)
    | cons d rest2 =>
      rw [hdw] at h
      replace h : (if d = '\n' then dropCloseFence rest2 else none) = some body := h
      split_ifs at h with hd
      have hr2 : rest2 = body ++ fenceClose := dropCloseFence_eq_some rest2 body h
      refine ⟨rest.takeWhile isLangChar, fun x hx => List.mem_takeWhile_imp hx, ?_⟩
      have hjoin : List.takeWhile isLangChar rest ++ '\n' :: (body ++ fenceClose) = rest := by
        rw [← hd, ← hr2, ← hdw]
        exact List.takeWhile_append_dropWhile isLangChar rest
      rw [ea, eb, ec]
      unfold fencedForm fenceOpen
      simp only [List.cons_append, List.nil_append]
      rw [hjoin]

theorem cleanCodeBlock_fencedForm (lang body : Str)
    (hl : ∀ c ∈ lang, isLangChar c = true) :
    cleanCodeBlock (fencedForm lang body) = trimChars body := by
  have hne : fencedForm lang body ≠ [] := by simp [fencedForm, fenceOpen]
  unfold cleanCodeBlock stripFence
  rw [if_neg hne, stripFenceCore_fencedForm lang body hl]

theorem cleanCodeBlock_core_none (s : Str) (h : stripFenceCore s = none) :
    cleanCodeBlock s = trimChars s := by
  unfold cleanCodeBlock stripFence
  rw [h]
  by_cases hs : s = []
  · rw [if_pos hs, hs]; rfl
  · rw [if_neg hs]

theorem cleanCodeBlock_no_decomp (s : Str)
    (h : ∀ lang body, (∀ c ∈ lang, isLangChar c = true) → s ≠ fencedForm lang body) :
    cleanCodeBlock s = trimChars s := by
  cases hsf : stripFenceCore s with
  | none => exact cleanCodeBlock_core_none s hsf
  | some b =>
    obtain ⟨lang, hlang, heq⟩ := stripFenceCore_eq_some s b hsf
    exact absurd heq (h lang b hlang)

theorem trimChars_cleanCodeBlock (s : Str) :
    trimChars (cleanCodeBlock s) = cleanCodeBlock s := by
  unfold cleanCodeBlock
  by_cases hs : s = []
  · rw [if_pos hs]; rfl
  · rw [if_neg hs]; exact trimChars_idem _

theorem cleanCodeBlock_all_ws (s : Str) (h : ∀ c ∈ s, isJsWs c = true) :
    cleanCodeBlock s = [] := by
  have hsf : stripFenceCore s = none := by
    rcases s with _ | ⟨a, _ | ⟨b, _ | ⟨c, rest⟩⟩⟩ <;> try rfl
    have ha : isJsWs a = true := h a (by simp)
    have hab : a ≠ bt := by
      intro e; rw [e] at ha; exact absurd ha (by decide)
    show (if a = bt ∧ b = bt ∧ c = bt then
        match rest.dropWhile isLangChar with
        | d :: rest2 => if d = '\n' then dropCloseFence rest2 else none
        | [] => none
      else none) = none
    rw [if_neg (by rintro ⟨e1, _⟩; exact hab e1)]
  rw [cleanCodeBlock_core_none s hsf]
  have hdl : trimLeft s = [] := by
    unfold trimLeft
    exact List.dropWhile_eq_nil_iff.mpr h
  unfold trimChars
  rw [hdl]
  rfl

/- ## JSON (the platform `JSON.parse` used by the analysis capability) -/

/-- JSON values as produced by `JSON.parse`.  Numeric literals keep their
lexeme (the numeric value itself is never inspected by the client code). -/
inductive Json where
  | null
  | bool (b : Bool)
  | num (lexeme : Str)
  | str (s : Str)
  | arr (items : List Json)
  | obj (members : List (Str × Json))

/-- The opening-brace character (spelled via its code point). -/
def lbraceChar : Char := Char.ofNat 123

/-- The closing-brace character (spelled via its code point). -/
def rbraceChar : Char := Char.ofNat 125

/-- JSON insignificant whitespace (space, tab, line feed, carriage return). -/
def jsonWsB (c : Char) : Bool := c = ' ' || c = '\t' || c = '\n' || c = '\r'

/-- Skip JSON whitespace. -/
def skipWs (s : Str) : Str := s.dropWhile jsonWsB

/-- Hexadecimal digit test for `\u` escapes. -/
def isHexChar (c : Char) : Bool :=
  c.isDigit || (('a' ≤ c && c ≤ 'f') || ('A' ≤ c && c ≤ 'F'))

/-- Value of a hexadecimal digit. -/
def hexVal (c : Char) : Nat :=
  if c.isDigit then c.toNat - 48
  else if 'a' ≤ c && c ≤ 'f' then c.toNat - 87
  else c.toNat - 55

/-- Parse the body of a JSON string after the opening quote; returns the
decoded characters and the remaining input after the closing quote. -/
def parseStringBody : Nat → Str → Option (Str × Str)
  | 0, _ => none
  | _ + 1, [] => none
  | fuel + 1, c :: rest =>
    if c = '"' then some ([], rest)
    else if c = '\\' then
      match rest with
      | [] => none
      | e :: rest2 =>
        if e = '"' || e = '\\' || e = '/' then
          (parseStringBody fuel rest2).map (fun p => (e :: p.1, p.2))
        else if e = 'b' then
          (parseStringBody fuel rest2).map (fun p => (Char.ofNat 8 :: p.1, p.2))
        else if e = 'f' then
          (parseStringBody fuel rest2).map (fun p => (Char.ofNat 12 :: p.1, p.2))
        else if e = 'n' then
          (parseStringBody fuel rest2).map (fun p => ('\n' :: p.1, p.2))
        else if e = 'r' then
          (parseStringBody fuel rest2).map (fun p => ('\r' :: p.1, p.2))
        else if e = 't' then
          (parseStringBody fuel rest2).map (fun p => ('\t' :: p.1, p.2))
        else if e = 'u' then
          match rest2 with
          | h1 :: h2 :: h3 :: h4 :: rest3 =>
            if isHexChar h1 && isHexChar h2 && isHexChar h3 && isHexChar h4 then
              (parseStringBody fuel rest3).map (fun p =>
                (Char.ofNat (((hexVal h1 * 16 + hexVal h2) * 16 + hexVal h3) * 16 + hexVal h4)
                   :: p.1, p.2))
            else none
          | _ => none
        else none
    else if c.toNat < 32 then none
    else (parseStringBody fuel rest).map (fun p => (c :: p.1, p.2))

/-- Parse the optional exponent part of a JSON numeric literal. -/
def parseExpPart (lexSoFar : Str) (s : Str) : Option (Str × Str) :=
  match s with
  | c :: t =>
    if c = 'e' ∨ c = 'E' then
      let (sgn, t2) :=
        match t with
        | d :: u => if d = '+' ∨ d = '-' then ([d], u) else (([] : Str), t)
        | [] => (([] : Str), t)
      let ds := t2.takeWhile Char.isDigit
      if ds = [] then none
      else some (lexSoFar ++ c :: (sgn ++ ds), t2.dropWhile Char.isDigit)
    else some (lexSoFar, s)
  | [] => some (lexSoFar, s)

/-- Parse the optional fraction (then exponent) part of a JSON numeric
literal after its integer part. -/
def parseFracExp (intPart : Str) (s : Str) : Option (Str × Str) :=
  match s with
  | '.' :: t =>
    let ds := t.takeWhile Char.isDigit
    if ds = [] then none
    else parseExpPart (intPart ++ '.' :: ds) (t.dropWhile Char.isDigit)
  | _ => parseExpPart intPart s

/-- Parse a JSON numeric literal (`-?(0|[1-9][0-9]*)(\.[0-9]+)?([eE][+-]?[0-9]+)?`);
returns the lexeme and the remaining input. -/
def parseNumberLex (s : Str) : Option (Str × Str) :=
  let (neg, s1) :=
    match s with
    | c :: t => if c = '-' then ((['-'] : Str), t) else (([] : Str), s)
    | [] => (([] : Str), s)
  match s1 with
  | [] => none
  | c :: t =>
    if c = '0' then
      (parseFracExp ['0'] t).map (fun p => (neg ++ p.1, p.2))
    else if c.isDigit then
      (parseFracExp (c :: t.takeWhile Char.isDigit) (t.dropWhile Char.isDigit)).map
        (fun p => (neg ++ p.1, p.2))
    else none

mutual

/-- Parse one JSON value (leading whitespace allowed); returns the value and
the remaining input. -/
def parseValue : Nat → Str → Option (Json × Str)
  | 0, _ => none
  | fuel + 1, s =>
    match skipWs s with
    | [] => none
    | c :: rest =>
      if c = lbraceChar then
        match skipWs rest with
        | d :: r2 =>
          if d = rbraceChar then some (.obj [], r2)
          else (parseMembers fuel (skipWs rest)).map (fun p => (Json.obj p.1, p.2))
        | [] => none
      else if c = '[' then
        match skipWs rest with
        | d :: r2 =>
          if d = ']' then some (.arr [], r2)
          else (parseElems fuel (skipWs rest)).map (fun p => (Json.arr p.1, p.2))
        | [] => none
      else if c = '"' then
        (parseStringBody (fuel + 1) rest).map (fun p => (Json.str p.1, p.2))
      else if c = 't' then
        match rest with
        | 'r' :: 'u' :: 'e' :: r => some (.bool true, r)
        | _ => none
      else if c = 'f' then
        match rest with
        | 'a' :: 'l' :: 's' :: 'e' :: r => some (.bool false, r)
        | _ => none
      else if c = 'n' then
        match rest with
        | 'u' :: 'l' :: 'l' :: r => some (.null, r)
        | _ => none
      else if c = '-' || c.isDigit then
        (parseNumberLex (c :: rest)).map (fun p => (Json.num p.1, p.2))
      else none

/-- Parse the elements of a non-empty JSON array up to and including `]`. -/
def parseElems : Nat → Str → Option (List Json × Str)
  | 0, _ => none
  | fuel + 1, s =>
    match parseValue fuel s with
    | none => none
    | some (v, r) =>
      match skipWs r with
      | ',' :: r2 => (parseElems fuel r2).map (fun p => (v :: p.1, p.2))
      | ']' :: r2 => some ([v], r2)
      | _ => none

/-- Parse the members of a non-empty JSON object up to and including `}`. -/
def parseMembers : Nat → Str → Option (List (Str × Json) × Str)
  | 0, _ => none
  | fuel + 1, s =>
    match skipWs s with
    | c :: r1 =>
      if c = '"' then
        match parseStringBody (fuel + 1) r1 with
        | some (k, r2) =>
          match skipWs r2 with
          | ':' :: r3 =>
            match parseValue fuel r3 with
            | some (v, r4) =>
              match skipWs r4 with
              | ',' :: r5 => (parseMembers fuel r5).map (fun p => ((k, v) :: p.1, p.2))
              | d :: r5 => if d = rbraceChar then some ([(k, v)], r5) else none
              | [] => none
            | none => none
          | _ => none
        | none => none
      else none
    | [] => none

end

/-- `JSON.parse`: `some` of the parsed value when the whole text is a valid
JSON document, `none` (a `SyntaxError`) otherwise. -/
def jsonParse (s : Str) : Option Json :=
  match parseValue (2 * s.length + 4) s with
  | some (v, r) => if skipWs r = [] then some v else none
  | none => none

/- ## The service layer (src/types.ts, service section) -/

/-- An underlying fault that a capability call can encounter: a raised
transport/SDK error (carrying its message) or the `SyntaxError` raised by
`JSON.parse`. -/
inductive Fault where
  | transport (message : Str)
  | syntaxError
  deriving DecidableEq

/-- The classified error type (`class GeminiError extends Error`,
src/types.ts lines 64-69): a human-readable message and, optionally, the
original underlying fault. -/
structure GeminiError where
  message : Str
  originalError : Option Fault
  deriving DecidableEq

/-- A value thrown to the caller: either the classified `GeminiError` or a
raw, unwrapped fault. -/
inductive Thrown where
  | gemini (e : GeminiError)
  | raw (f : Fault)
  deriving DecidableEq

/-- Whether a thrown value is the classified error type. -/
def isGeminiThrown : Thrown → Bool
  | .gemini _ => true
  | .raw _ => false

/-- The two service-side model variants selected by the gateway. -/
inductive ModelVariant where
  | pro
  | flash
  deriving DecidableEq

/-- Externally observable steps of a capability call, in order. -/
inductive Event where
  | promptBuilt
  | requestSent (variant : ModelVariant)
  deriving DecidableEq

/-- Number of outbound requests in a trace. -/
def countRequests (evs : List Event) : Nat :=
  (evs.filter fun e => match e with | .requestSent _ => true | _ => false).length

/-- The configuration error thrown by `validateApiKey` (src/types.ts
lines 79-83). -/
def apiKeyGeminiError : GeminiError :=
  ⟨"API Key is missing. Please ensure process.env.API_KEY is set.".toList, none⟩

/-- The input error for blank URL input (src/types.ts line 177). -/
def urlsEmptyGeminiError : GeminiError := ⟨"URLs cannot be empty.".toList, none⟩

/-- The availability error for an empty analysis payload (src/types.ts
line 225). -/
def emptyResponseGeminiError : GeminiError :=
  ⟨"Empty response from AI. The model may be overloaded.".toList, none⟩

/-- The decode error raised when `JSON.parse` fails (src/types.ts
line 222), carrying the parse fault. -/
def parseGeminiError : GeminiError :=
  ⟨"Failed to parse AI response. Please try again.".toList, some Fault.syntaxError⟩

/-- `error.message || "Unknown error during analysis."` in the outer catch of
the analysis capability (src/types.ts line 230). -/
def transportMessage (m : Str) : Str :=
  if m = [] then "Unknown error during analysis.".toList else m

/-- The trace of an analysis call that reaches the gateway. -/
def analysisTrace : List Event := [Event.promptBuilt, Event.requestSent ModelVariant.pro]

/-- `analyzePortfolio` (src/types.ts lines 174-232): validate the
module-scoped credential, reject blank URL input, issue the
structured-extraction request, classify every failure as a `GeminiError`,
and return `JSON.parse` of the response text without any further shape
validation.  `gateway` is the outcome of the single outbound request: a
raised transport-fault message, or the raw response text (empty models both
an empty payload and a missing text field). -/
def analyzePortfolio (apiKey : Option Str) (urls context : Str)
    (gateway : Except Str Str) : Except GeminiError Json × List Event :=
  match apiKey with
  | none => (Except.error apiKeyGeminiError, [])
  | some _ =>
    if trimChars urls = [] then (Except.error urlsEmptyGeminiError, [])
    else
      match gateway with
      | Except.error m =>
        (Except.error ⟨transportMessage m, some (Fault.transport m)⟩, analysisTrace)
      | Except.ok text =>
        if text = [] then (Except.error emptyResponseGeminiError, analysisTrace)
        else
          match jsonParse text with
          | none => (Except.error parseGeminiError, analysisTrace)
          | some v => (Except.ok v, analysisTrace)

/-- Shared shape of the nine free-text artifact capabilities
(src/types.ts lines 234-466): validate the credential, issue the request
with the capability's model variant, and return
`cleanCodeBlock(response.text || fallback)`; a raised transport fault is
not caught and propagates unwrapped. -/
def runArtifact (variant : ModelVariant) (fallback : Str) (apiKey : Option Str)
    (gateway : Except Str Str) : Except Thrown Str × List Event :=
  match apiKey with
  | none => (Except.error (Thrown.gemini apiKeyGeminiError), [])
  | some _ =>
    match gateway with
    | Except.error m =>
      (Except.error (Thrown.raw (Fault.transport m)),
        [Event.promptBuilt, Event.requestSent variant])
    | Except.ok text =>
      (Except.ok (cleanCodeBlock (if text = [] then fallback else text)),
        [Event.promptBuilt, Event.requestSent variant])

/-- Fallback of `generateReadme` (src/types.ts line 263). -/
def readmeFallback : Str := "Failed to generate README.".toList

/-- Fallback of `generateCiCd` (src/types.ts line 293). -/
def ciCdFallback : Str := "Failed to generate CI/CD configuration.".toList

/-- Fallback of `generateDocStrategy` (src/types.ts line 321). -/
def docStrategyFallback : Str := "Failed to generate Strategy.".toList

/-- Fallback of `generateLicense` (src/types.ts line 340). -/
def licenseFallback : Str := "Failed to generate License.".toList

/-- Fallback of `generateCommitConfig` (src/types.ts line 363). -/
def commitConfigFallback : Str := "Failed to generate Commit Config.".toList

/-- Fallback of `generateIssueTemplates` (src/types.ts line 394). -/
def issueTemplatesFallback : Str := "Failed to generate Issue Templates.".toList

/-- Fallback of `generateSecurityPolicy` (src/types.ts line 417). -/
def securityPolicyFallback : Str := "Failed to generate Security Policy.".toList

/-- Fallback of `generateCodeOfConduct` (src/types.ts line 436). -/
def codeOfConductFallback : Str := "Failed to generate Code of Conduct.".toList

/-- Fallback of `generateDirectoryStructure` (src/types.ts line 465). -/
def directoryStructureFallback : Str := "Failed to generate Directory Structure.".toList

/-- `generateReadme` (src/types.ts lines 234-264). -/
def generateReadme : Option Str → Except Str Str → Except Thrown Str × List Event :=
  runArtifact ModelVariant.flash readmeFallback

/-- `generateCiCd` (src/types.ts lines 266-294). -/
def generateCiCd : Option Str → Except Str Str → Except Thrown Str × List Event :=
  runArtifact ModelVariant.pro ciCdFallback

/-- `generateDocStrategy` (src/types.ts lines 296-322). -/
def generateDocStrategy : Option Str → Except Str Str → Except Thrown Str × List Event :=
  runArtifact ModelVariant.pro docStrategyFallback

/-- `generateLicense` (src/types.ts lines 324-341). -/
def generateLicense : Option Str → Except Str Str → Except Thrown Str × List Event :=
  runArtifact ModelVariant.flash licenseFallback

/-- `generateCommitConfig` (src/types.ts lines 343-364). -/
def generateCommitConfig : Option Str → Except Str Str → Except Thrown Str × List Event :=
  runArtifact ModelVariant.flash commitConfigFallback

/-- `generateIssueTemplates` (src/types.ts lines 366-395). -/
def generateIssueTemplates : Option Str → Except Str Str → Except Thrown Str × List Event :=
  runArtifact ModelVariant.flash issueTemplatesFallback

/-- `generateSecurityPolicy` (src/types.ts lines 397-418). -/
def generateSecurityPolicy : Option Str → Except Str Str → Except Thrown Str × List Event :=
  runArtifact ModelVariant.flash securityPolicyFallback

/-- `generateCodeOfConduct` (src/types.ts lines 420-437). -/
def generateCodeOfConduct : Option Str → Except Str Str → Except Thrown Str × List Event :=
  runArtifact ModelVariant.flash codeOfConductFallback

/-- `generateDirectoryStructure` (src/types.ts lines 439-466). -/
def generateDirectoryStructure : Option Str → Except Str Str → Except Thrown Str × List Event :=
  runArtifact ModelVariant.flash directoryStructureFallback

/- ## Presentation layer: commit-config filename selection
(src/components/RepoCard.tsx lines 93-94) -/

/-- JavaScript `toLowerCase` on the modelled character range. -/
def toLowerStr (s : Str) : Str := s.map Char.toLower

/-- Substring containment (the unanchored JavaScript regex match). -/
def containsSub (needle : Str) : Str → Bool
  | [] => needle.isEmpty
  | c :: t => needle.isPrefixOf (c :: t) || containsSub needle t

/-- The alternatives of the regex
`/(javascript|typescript|node|react|vue|angular)/`. -/
def jsKeywords : List Str :=
  ["javascript".toList, "typescript".toList, "node".toList,
   "react".toList, "vue".toList, "angular".toList]

/-- `handleGenerateCommitConfig`'s filename choice: `commitlint.config.js`
when the lowercased primary language contains one of the keyword
alternatives (an unanchored regex match), `.pre-commit-config.yaml`
otherwise. -/
def commitConfigFilename (primaryLanguage : Str) : Str :=
  if jsKeywords.any (fun kw => containsSub kw (toLowerStr primaryLanguage)) then
    "commitlint.config.js".toList
  else
    ".pre-commit-config.yaml".toList

/- ## Schema Registry (src/types.ts lines 86-170) -/

/-- Schema nodes of the registry: objects with properties and a
required-field list, arrays, strings (possibly with an enum), and numbers. -/
inductive SchemaNode where
  | obj (properties : List (Str × SchemaNode)) (required : List Str)
  | arr (item : SchemaNode)
  | str (enums : List Str)
  | num

/-- `auditSchema` (src/types.ts lines 86-101).  Its `required` list names
seven of the eight score dimensions plus `rationale` and `topFixes`. -/
def auditSchema : SchemaNode :=
  .obj
    [("documentation".toList, .num), ("buildDevX".toList, .num),
     ("testing".toList, .num), ("ciCd".toList, .num),
     ("security".toList, .num), ("observability".toList, .num),
     ("maintainability".toList, .num), ("productionReadiness".toList, .num),
     ("rationale".toList, .str []), ("topFixes".toList, .arr (.str []))]
    ["documentation".toList, "buildDevX".toList, "testing".toList,
     "ciCd".toList, "security".toList, "maintainability".toList,
     "productionReadiness".toList, "rationale".toList, "topFixes".toList]

/-- `repoSchema` (src/types.ts lines 103-115). -/
def repoSchema : SchemaNode :=
  .obj
    [("name".toList, .str []), ("url".toList, .str []),
     ("status".toList,
       .str ["Active".toList, "Dormant".toList, "Archived".toList,
             "Template".toList, "Fork".toList, "Unknown".toList]),
     ("primaryLanguage".toList, .str []),
     ("frameworks".toList, .arr (.str [])),
     ("audit".toList, auditSchema),
     ("description".toList, .str [])]
    ["name".toList, "url".toList, "status".toList, "primaryLanguage".toList,
     "audit".toList, "description".toList]

/-- `actionSchema` (src/types.ts lines 117-128). -/
def actionSchema : SchemaNode :=
  .obj
    [("title".toList, .str []), ("repo".toList, .str []),
     ("priority".toList, .str ["High".toList, "Medium".toList, "Low".toList]),
     ("impact".toList, .str []),
     ("effort".toList, .str ["Small".toList, "Medium".toList, "Large".toList]),
     ("rationale".toList, .str [])]
    ["title".toList, "repo".toList, "priority".toList, "impact".toList,
     "effort".toList, "rationale".toList]

/-- `summarySchema` (src/types.ts lines 130-159). -/
def summarySchema : SchemaNode :=
  .obj
    [("executiveSummary".toList, .str []),
     ("stats".toList,
       .obj
         [("totalRepos".toList, .num), ("activeCount".toList, .num),
          ("archivedCount".toList, .num), ("languages".toList, .obj [] [])]
         ["totalRepos".toList, "activeCount".toList, "archivedCount".toList]),
     ("capabilities".toList, .arr (.str [])),
     ("spotlightProjects".toList,
       .arr (.obj
         [("name".toList, .str []), ("description".toList, .str []),
          ("impressiveFactor".toList, .str [])]
         ["name".toList, "description".toList, "impressiveFactor".toList]))]
    ["executiveSummary".toList, "stats".toList, "capabilities".toList,
     "spotlightProjects".toList]

/-- `rootSchema` (src/types.ts lines 161-170). -/
def rootSchema : SchemaNode :=
  .obj
    [("summary".toList, summarySchema),
     ("repos".toList, .arr repoSchema),
     ("actions".toList, .arr actionSchema),
     ("claimsCheck".toList, .arr (.str []))]
    ["summary".toList, "repos".toList, "actions".toList, "claimsCheck".toList]

mutual

/-- Does every object node of a schema tree declare a `required` list that
is a subset of its declared property names? -/
def requiredSubsetOK : SchemaNode → Bool
  | .obj props req =>
    req.all (fun r => props.any (fun p => p.1 = r)) && requiredSubsetOKProps props
  | .arr item => requiredSubsetOK item
  | .str _ => true
  | .num => true

/-- `requiredSubsetOK` over the property list of an object node. -/
def requiredSubsetOKProps : List (Str × SchemaNode) → Bool
  | [] => true
  | (_, n) :: rest => requiredSubsetOK n && requiredSubsetOKProps rest

end

/-- The required-field list of an object schema node. -/
def requiredOf : SchemaNode → List Str
  | .obj _ req => req
  | _ => []

/-- The declared property names of an object schema node. -/
def propertiesOf : SchemaNode → List Str
  | .obj props _ => props.map Prod.fst
  | _ => []

/-- The eight audit dimensions `RepoCard` reads, without defensive defaults,
to compute the average score (src/components/RepoCard.tsx lines 23-35). -/
def repoCardAuditKeys : List Str :=
  ["documentation".toList, "buildDevX".toList, "testing".toList,
   "ciCd".toList, "security".toList, "observability".toList,
   "maintainability".toList, "productionReadiness".toList]

/-- Does a parsed JSON value have a top-level object member with the given
key? -/
def hasKey (j : Json) (k : Str) : Bool :=
  match j with
  | .obj members => members.any (fun m => m.1 = k)
  | _ => false

/-- The nine free-text artifact capabilities paired with their
capability-specific fallback strings. -/
def artifactCapabilities :
    List ((Option Str → Except Str Str → Except Thrown Str × List Event) × Str) :=
  [(generateReadme, readmeFallback), (generateCiCd, ciCdFallback),
   (generateDocStrategy, docStrategyFallback), (generateLicense, licenseFallback),
   (generateCommitConfig, commitConfigFallback),
   (generateIssueTemplates, issueTemplatesFallback),
   (generateSecurityPolicy, securityPolicyFallback),
   (generateCodeOfConduct, codeOfConductFallback),
   (generateDirectoryStructure, directoryStructureFallback)]

/- ## Shared facts about the service layer -/

/-- Every error returned by the analysis capability is classified: it
carries a nonempty human-readable message. -/
theorem analyze_error_message_ne_nil (apiKey : Option Str) (urls context : Str)
    (gateway : Except Str Str) (e : GeminiError)
    (he : (analyzePortfolio apiKey urls context gateway).fst = Except.error e) :
    e.message ≠ [] := by
  unfold analyzePortfolio at he
  rcases apiKey with _ | k
  · replace he : Except.error apiKeyGeminiError = Except.error e := he
    cases he
    decide
  · by_cases h1 : trimChars urls = []
    · rw [if_pos h1] at he
      replace he : Except.error urlsEmptyGeminiError = Except.error e := he
      cases he
      decide
    · rw [if_neg h1] at he
      rcases gateway with m | t
      · replace he :
            Except.error (⟨transportMessage m, some (Fault.transport m)⟩ : GeminiError)
              = Except.error e := he
        cases he
        show transportMessage m ≠ []
        unfold transportMessage
        by_cases hm : m = []
        · rw [if_pos hm]; decide
        · rw [if_neg hm]; exact hm
      · replace he :
            (if t = [] then (Except.error emptyResponseGeminiError, analysisTrace)
             else
               match jsonParse t with
               | none => (Except.error parseGeminiError, analysisTrace)
               | some w => (Except.ok w, analysisTrace)).fst = Except.error e := he
        by_cases h2 : t = []
        · rw [if_pos h2] at he
          replace he : Except.error emptyResponseGeminiError = Except.error e := he
          cases he
          decide
        · rw [if_neg h2] at he
          rcases hjp : jsonParse t with _ | v <;> rw [hjp] at he
          · replace he : Except.error parseGeminiError = Except.error e := he
            cases he
            decide
          · replace he : Except.ok v = Except.error e := he
            cases he

/-- On the happy path the analysis capability returns exactly the
`JSON.parse` of the response text. -/
theorem analyze_ok (k urls context t : Str) (v : Json)
    (h1 : trimChars urls ≠ []) (h2 : t ≠ []) (h3 : jsonParse t = some v) :
    analyzePortfolio (some k) urls context (Except.ok t) = (Except.ok v, analysisTrace) := by
  unfold analyzePortfolio
  rw [if_neg h1]
  show (if t = [] then (Except.error emptyResponseGeminiError, analysisTrace)
        else
          match jsonParse t with
          | none => (Except.error parseGeminiError, analysisTrace)
          | some w => (Except.ok w, analysisTrace)) = (Except.ok v, analysisTrace)
  rw [if_neg h2, h3]

/- ## Claims -/

/-- Claim C1, counterexample: with the credential present and non-blank URL
input, the response text `"[]"` is well-formed JSON, so the analysis
capability returns it successfully even though the result has no `summary`
member at all — the claimed shape/range guarantee does not hold. -/
theorem claim_C1_counterexample :
    (analyzePortfolio (some "k".toList) "u".toList [] (Except.ok "[]".toList)).fst
      = Except.ok (Json.arr []) ∧
    hasKey (Json.arr []) "summary".toList = false :=
  ⟨rfl, rfl⟩

/-- Claim C1 (amended): for every call with the credential present,
non-blank URL input and a nonempty response text that parses as JSON, the
analysis capability returns the `JSON.parse` of the text with no
client-side shape or score-range validation; and every error it returns is
the classified `GeminiError` with a nonempty human-readable message — it
never terminates with an unhandled fault. -/
theorem claim_C1 :
    (∀ (k urls context t : Str) (v : Json), trimChars urls ≠ [] → t ≠ [] →
      jsonParse t = some v →
      analyzePortfolio (some k) urls context (Except.ok t)
        = (Except.ok v, analysisTrace)) ∧
    (∀ (apiKey : Option Str) (urls context : Str) (gateway : Except Str Str)
        (e : GeminiError),
      (analyzePortfolio apiKey urls context gateway).fst = Except.error e →
      e.message ≠ []) :=
  ⟨analyze_ok, analyze_error_message_ne_nil⟩

/-- Claim C1, witness: the amended theorem applied at a concrete call whose
response text is the shape-violating JSON document `"6"`. -/
theorem claim_C1_witness :
    analyzePortfolio (some "k".toList) "u".toList [] (Except.ok "6".toList)
      = (Except.ok (Json.num ['6']), analysisTrace) :=
  claim_C1.1 "k".toList "u".toList [] "6".toList (Json.num ['6'])
    (by decide) (by decide) (by rfl)

/-- Claim C2, counterexample: a whitespace-only (hence nonempty, truthy)
response bypasses the `|| fallback` default and trims to the empty string,
so `generateReadme` returns `""`, not its fallback. -/
theorem claim_C2_counterexample :
    (generateReadme (some "k".toList) (Except.ok "   ".toList)).fst
      = Except.ok [] ∧ ([] : Str) ≠ readmeFallback :=
  ⟨rfl, by decide⟩

/-- Claim C2 (amended): when the response text is empty, each of the nine
free-text capabilities returns its capability-specific fallback string; but
a whitespace-only nonempty response is returned as the empty string, not
the fallback. -/
theorem claim_C2 :
    (∀ cap fb, (cap, fb) ∈ artifactCapabilities →
      ∀ k : Str, (cap (some k) (Except.ok [])).fst = Except.ok fb) ∧
    (∀ (variant : ModelVariant) (fallback k t : Str), t ≠ [] →
      (∀ c ∈ t, isJsWs c = true) →
      (runArtifact variant fallback (some k) (Except.ok t)).fst = Except.ok []) := by
  constructor
  · intro cap fb hmem k
    simp only [artifactCapabilities, List.mem_cons, List.not_mem_nil, or_false,
      Prod.mk.injEq] at hmem
    rcases hmem with ⟨h1, h2⟩ | ⟨h1, h2⟩ | ⟨h1, h2⟩ | ⟨h1, h2⟩ | ⟨h1, h2⟩ |
      ⟨h1, h2⟩ | ⟨h1, h2⟩ | ⟨h1, h2⟩ | ⟨h1, h2⟩ <;> subst h1 <;> subst h2 <;>
      exact congrArg Except.ok (by decide)
  · intro variant fallback k t ht hws
    show Except.ok (cleanCodeBlock (if t = [] then fallback else t)) = Except.ok []
    rw [if_neg ht, cleanCodeBlock_all_ws t hws]

/-- Claim C2, witness: the amended theorem applied to `generateReadme` with
an empty response, and to a one-space response. -/
theorem claim_C2_witness :
    (generateReadme (some "key".toList) (Except.ok [])).fst = Except.ok readmeFallback ∧
    (runArtifact ModelVariant.flash readmeFallback (some "key".toList)
        (Except.ok " ".toList)).fst = Except.ok [] :=
  ⟨claim_C2.1 generateReadme readmeFallback (List.mem_cons_self _ _) "key".toList,
   claim_C2.2 ModelVariant.flash readmeFallback "key".toList " ".toList
     (by decide) (by decide)⟩

/-- Claim C3, counterexample: `"{}"` (spelled with escaped braces) is
well-formed JSON that does not match the expected root-schema shape (it has
no `summary` member), yet the analysis capability returns it successfully —
no decode error is raised for shape mismatches. -/
theorem claim_C3_counterexample :
    (analyzePortfolio (some "k".toList) "u".toList []
        (Except.ok "\x7b\x7d".toList)).fst = Except.ok (Json.obj []) ∧
    hasKey (Json.obj []) "summary".toList = false :=
  ⟨rfl, rfl⟩

/-- Claim C3 (amended): with the credential present, non-blank URL input
and a present (nonempty) response text, the analysis capability raises the
decode error exactly when the text is not well-formed JSON; shape
conformance is not checked client-side.  The decode error carries the parse
fault and is distinct from the transport-failure error, which carries the
transport fault. -/
theorem claim_C3 :
    (∀ (k urls context t : Str), trimChars urls ≠ [] → t ≠ [] →
      ((analyzePortfolio (some k) urls context (Except.ok t)).fst
          = Except.error parseGeminiError ↔ jsonParse t = none)) ∧
    parseGeminiError.originalError = some Fault.syntaxError ∧
    (∀ (k urls context m : Str), trimChars urls ≠ [] →
      (analyzePortfolio (some k) urls context (Except.error m)).fst
        = Except.error ⟨transportMessage m, some (Fault.transport m)⟩ ∧
      (⟨transportMessage m, some (Fault.transport m)⟩ : GeminiError)
        ≠ parseGeminiError) := by
  refine ⟨?_, rfl, ?_⟩
  · intro k urls context t h1 h2
    unfold analyzePortfolio
    rw [if_neg h1]
    show ((if t = [] then (Except.error emptyResponseGeminiError, analysisTrace)
           else
             match jsonParse t with
             | none => (Except.error parseGeminiError, analysisTrace)
             | some w => (Except.ok w, analysisTrace)).fst
            = Except.error parseGeminiError) ↔ jsonParse t = none
    rw [if_neg h2]
    cases hjp : jsonParse t with
    | none => simp
    | some v => simp
  · intro k urls context m h1
    constructor
    · unfold analyzePortfolio
      rw [if_neg h1]
    · intro hcontra
      have := congrArg GeminiError.originalError hcontra
      simp [parseGeminiError] at this

/-- Claim C3, witness: the amended theorem applied at a concrete truncated
JSON response, which yields the decode error. -/
theorem claim_C3_witness :
    (analyzePortfolio (some "k".toList) "u".toList []
        (Except.ok "\x7b\"summary\":".toList)).fst = Except.error parseGeminiError :=
  (claim_C3.1 "k".toList "u".toList [] "\x7b\"summary\":".toList
    (by decide) (by decide)).mpr (by rfl)

/-- Claim C4, counterexample: a transport fault during `generateReadme` is
not caught by the capability and reaches the caller as the raw fault, not
as the classified `GeminiError`. -/
theorem claim_C4_counterexample :
    (generateReadme (some "k".toList) (Except.error "boom".toList)).fst
      = Except.error (Thrown.raw (Fault.transport "boom".toList)) ∧
    isGeminiThrown (Thrown.raw (Fault.transport "boom".toList)) = false :=
  ⟨rfl, rfl⟩

/-- Claim C4 (amended): the analysis capability classifies every failure
kind as a `GeminiError` with a nonempty message, preserving the original
transport fault where available; the free-text capabilities classify the
configuration error but propagate transport faults unwrapped; and no
capability issues more than one outbound request per invocation (no
internal retry). -/
theorem claim_C4 :
    (∀ (apiKey : Option Str) (urls context : Str) (gateway : Except Str Str)
        (e : GeminiError),
      (analyzePortfolio apiKey urls context gateway).fst = Except.error e →
      e.message ≠ []) ∧
    (∀ (k urls context m : Str), trimChars urls ≠ [] →
      (analyzePortfolio (some k) urls context (Except.error m)).fst
        = Except.error ⟨transportMessage m, some (Fault.transport m)⟩) ∧
    (∀ (variant : ModelVariant) (fallback : Str) (gateway : Except Str Str),
      (runArtifact variant fallback none gateway).fst
        = Except.error (Thrown.gemini apiKeyGeminiError)) ∧
    (∀ (variant : ModelVariant) (fallback k m : Str),
      (runArtifact variant fallback (some k) (Except.error m)).fst
        = Except.error (Thrown.raw (Fault.transport m))) ∧
    (∀ (apiKey : Option Str) (urls context : Str) (gateway : Except Str Str),
      countRequests (analyzePortfolio apiKey urls context gateway).snd ≤ 1) ∧
    (∀ (variant : ModelVariant) (fallback : Str) (apiKey : Option Str)
        (gateway : Except Str Str),
      countRequests (runArtifact variant fallback apiKey gateway).snd ≤ 1) := by
  refine ⟨analyze_error_message_ne_nil, ?_, ?_, ?_, ?_, ?_⟩
  · intro k urls context m h1
    unfold analyzePortfolio
    rw [if_neg h1]
  · intro variant fallback gateway
    rfl
  · intro variant fallback k m
    rfl
  · intro apiKey urls context gateway
    unfold analyzePortfolio
    rcases apiKey with _ | k
    · show countRequests ([] : List Event) ≤ 1
      decide
    · by_cases h1 : trimChars urls = []
      · rw [if_pos h1]
        show countRequests ([] : List Event) ≤ 1
        decide
      · rw [if_neg h1]
        rcases gateway with m | t
        · show countRequests analysisTrace ≤ 1
          decide
        · show countRequests
            (if t = [] then (Except.error emptyResponseGeminiError, analysisTrace)
             else
               match jsonParse t with
               | none => (Except.error parseGeminiError, analysisTrace)
               | some w => (Except.ok w, analysisTrace)).snd ≤ 1
          by_cases h2 : t = []
          · rw [if_pos h2]
            show countRequests analysisTrace ≤ 1
            decide
          · rw [if_neg h2]
            cases jsonParse t with
            | none =>
              show countRequests analysisTrace ≤ 1
              decide
            | some v =>
              show countRequests analysisTrace ≤ 1
              decide
  · intro variant fallback apiKey gateway
    rcases apiKey with _ | k
    · show countRequests ([] : List Event) ≤ 1
      decide
    · rcases gateway with m | t <;>
        · show countRequests [Event.promptBuilt, Event.requestSent variant] ≤ 1
          simp [countRequests]

/-- Claim C4, witness: the amended theorem applied at concrete calls — a
missing-credential analysis call and a concrete transport failure. -/
theorem claim_C4_witness :
    apiKeyGeminiError.message ≠ [] ∧
    (analyzePortfolio (some "k".toList) "u".toList [] (Except.error "x".toList)).fst
      = Except.error ⟨transportMessage "x".toList, some (Fault.transport "x".toList)⟩ :=
  ⟨claim_C4.1 none "u".toList [] (Except.ok []) apiKeyGeminiError rfl,
   claim_C4.2.1 "k".toList "u".toList [] "x".toList (by decide)⟩

/-- Claim C5: every capability invoked with the credential absent returns
the configuration error with an empty observable trace — no prompt is built
and no outbound request is attempted — and, the capabilities being pure
functions of their per-call inputs, this holds on every call regardless of
any earlier successful call. -/
theorem claim_C5 :
    (∀ (urls context : Str) (gateway : Except Str Str),
      analyzePortfolio none urls context gateway
        = (Except.error apiKeyGeminiError, [])) ∧
    (∀ (variant : ModelVariant) (fallback : Str) (gateway : Except Str Str),
      runArtifact variant fallback none gateway
        = (Except.error (Thrown.gemini apiKeyGeminiError), [])) :=
  ⟨fun _ _ _ => rfl, fun _ _ _ => rfl⟩

/-- Claim C6: the required-field list of every object schema in the
registry is a subset of its declared properties, and `RepoCard` reads the
`observability` dimension (declared in the audit schema's properties)
without a defensive default — yet the audit schema's `required` list omits
`observability`, contradicting both the spec's invariant and the
`RepoAudit` interface the schema is documented to match. -/
theorem claim_C6 :
    requiredSubsetOK rootSchema = true ∧
    "observability".toList ∈ propertiesOf auditSchema ∧
    "observability".toList ∈ repoCardAuditKeys ∧
    "observability".toList ∉ requiredOf auditSchema :=
  ⟨by rfl, by decide, by decide, by decide⟩

/-- Claim C7, counterexample: fence stripping is not idempotent — a leading
space defeats the anchored regex on the first pass, but trimming exposes a
fenced block that the second pass strips. -/
theorem claim_C7_counterexample :
    cleanCodeBlock (cleanCodeBlock (" \x60\x60\x60a\nb\n\x60\x60\x60".toList))
      ≠ cleanCodeBlock (" \x60\x60\x60a\nb\n\x60\x60\x60".toList) := by decide

/-- Claim C7 (amended): fence stripping is idempotent on every string whose
stripped result is not itself an exactly fenced block (in general it is
not), and stripping the literal fenced JSON example yields its body. -/
theorem claim_C7 :
    (∀ s : Str, stripFenceCore (cleanCodeBlock s) = none →
      cleanCodeBlock (cleanCodeBlock s) = cleanCodeBlock s) ∧
    cleanCodeBlock ("\x60\x60\x60json\n\x7b\"a\":1\x7d\n\x60\x60\x60".toList)
      = "\x7b\"a\":1\x7d".toList := by
  constructor
  · intro s h
    rw [cleanCodeBlock_core_none _ h]
    exact trimChars_cleanCodeBlock s
  · rfl

/-- Claim C7, witness: the amended theorem applied at the fence-free string
`"x"`. -/
theorem claim_C7_witness :
    cleanCodeBlock (cleanCodeBlock ("x".toList)) = cleanCodeBlock ("x".toList) :=
  claim_C7.1 "x".toList (by rfl)

/-- Claim C8: the commit-config filename is `commitlint.config.js` exactly
when the lowercased primary language contains one of the six keyword
alternatives of the regex (an unanchored match), and
`.pre-commit-config.yaml` otherwise; in particular `"TypeScript"` selects
the commitlint flavor while `"Rust"` and `"Python"` select the pre-commit
flavor. -/
theorem claim_C8 :
    commitConfigFilename "TypeScript".toList = "commitlint.config.js".toList ∧
    commitConfigFilename "Rust".toList = ".pre-commit-config.yaml".toList ∧
    commitConfigFilename "Python".toList = ".pre-commit-config.yaml".toList ∧
    (∀ lang : Str, commitConfigFilename lang = "commitlint.config.js".toList ↔
      ∃ kw ∈ jsKeywords, containsSub kw (toLowerStr lang) = true) := by
  refine ⟨by decide, by decide, by decide, ?_⟩
  intro lang
  unfold commitConfigFilename
  by_cases h : jsKeywords.any (fun kw => containsSub kw (toLowerStr lang)) = true
  · rw [if_pos h]
    simp only [true_iff]
    exact List.any_eq_true.mp h
  · rw [if_neg h]
    constructor
    · intro hcontra
      exact absurd hcontra (by decide)
    · intro hex
      exact absurd (List.any_eq_true.mpr hex) h

/-- Claim C9, counterexample: a single trailing newline after the closing
fence already defeats the anchored regex — the fences are left intact (the
result is merely trimmed), not stripped. -/
theorem claim_C9_counterexample :
    cleanCodeBlock ("\x60\x60\x60json\n\x7b\"a\":1\x7d\n\x60\x60\x60\n".toList)
      = "\x60\x60\x60json\n\x7b\"a\":1\x7d\n\x60\x60\x60".toList ∧
    cleanCodeBlock ("\x60\x60\x60json\n\x7b\"a\":1\x7d\n\x60\x60\x60\n".toList)
      ≠ "\x7b\"a\":1\x7d".toList :=
  ⟨rfl, by decide⟩

/-- Claim C9 (amended): fence stripping removes the fences exactly when the
opening fence starts at the very first character and the closing fence ends
the string exactly — no characters at all, not even a newline, may follow
it; any other string is returned merely trimmed, and the empty string maps
to the empty string. -/
theorem claim_C9 :
    (∀ lang body : Str, (∀ c ∈ lang, isLangChar c = true) →
      cleanCodeBlock (fencedForm lang body) = trimChars body) ∧
    (∀ s : Str, (∀ lang body : Str, (∀ c ∈ lang, isLangChar c = true) →
        s ≠ fencedForm lang body) →
      cleanCodeBlock s = trimChars s) ∧
    cleanCodeBlock [] = [] :=
  ⟨cleanCodeBlock_fencedForm, cleanCodeBlock_no_decomp, rfl⟩

/-- Claim C9, witness: the amended theorem applied at a concrete fenced
block with language tag `json`. -/
theorem claim_C9_witness :
    cleanCodeBlock (fencedForm ("json".toList) ("x".toList))
      = trimChars ("x".toList) :=
  claim_C9.1 "json".toList "x".toList (by decide)

/-- Claim C10: every successful result of a free-text artifact capability
(all nine are instances of `runArtifact`) carries no leading or trailing
whitespace — it is a fixed point of `trim`, because every success and
fallback path returns the trimmed output of `cleanCodeBlock`. -/
theorem claim_C10 :
    ∀ (variant : ModelVariant) (fallback : Str) (apiKey : Option Str)
      (gateway : Except Str Str) (s : Str),
      (runArtifact variant fallback apiKey gateway).fst = Except.ok s →
      trimChars s = s := by
  intro variant fallback apiKey gateway s h
  rcases apiKey with _ | k
  · replace h : Except.error (Thrown.gemini apiKeyGeminiError) = Except.ok s := h
    cases h
  · rcases gateway with m | text
    · replace h : Except.error (Thrown.raw (Fault.transport m)) = Except.ok s := h
      cases h
    · replace h :
          Except.ok (cleanCodeBlock (if text = [] then fallback else text))
            = Except.ok s := h
      simp only [Except.ok.injEq] at h
      subst h
      exact trimChars_cleanCodeBlock _

/-- Claim C10, witness: the theorem applied at a concrete call whose
success value is the README fallback string. -/
theorem claim_C10_witness : trimChars readmeFallback = readmeFallback :=
  claim_C10 ModelVariant.flash readmeFallback (some "k".toList) (Except.ok [])
    readmeFallback rfl

end PortfolioDoc
